import Mathlib

/-!
Shallow embedding of the Adaptive Review Scheduling & Batch Composition
Engine of the nxtwave-backend repository.

Sources embedded here:
* `src/services/spacedRepService.js` — `calculateNextReviewDate`,
  `getAllDueQuestions` (the variant actually imported by the controller;
  an older day-based variant exists in `src/unnamed/part_009`).
* `src/unnamed/part_007` (`flashcardJsonService.js`) — `composeBatch` and
  its helpers.
* `src/unnamed/part_004` (`userService.js`) — `startNewSession`,
  `markFlashcardAsShown`, `setBatchCompletionTime`.
* `src/controllers/flashcardController.js` — `getRandomFlashcardJson`
  (the batch-serving endpoint, called `serveNext` in the spec),
  `startSession`, `completeBatch`, `getUserCooldown`.

Modelling conventions: timestamps are `Int` milliseconds since epoch;
JavaScript `Set`s are lists with insertion order and membership tests;
JavaScript objects keyed by question id are association lists; file
persistence (`loadUsers`/`saveUsers`) always succeeds, so mutation is
explicit state passing; `Math.random()`-driven shuffles and picks are
parameters (`shuffle` functions / a `pick : Nat` index).
-/

/-- JavaScript runtime value, used where the source distinguishes strict
equality (`===`) from truthiness on a parameter that an API caller may set
to `true`, `false`, `null`, `undefined`, a number or a string. -/
inductive JSVal where
  | bool (b : Bool)
  | null
  | undefined
  | num (n : Int)
  | str (s : String)
deriving DecidableEq

/-- Catalog item (a question row carrying a flashcard), from the CSV
catalog: id, flashcard text, subtopic and topic id are the fields the
engine reads. -/
structure Question where
  id : String
  flashcard : String
  subTopic : String
  topicId : String
deriving DecidableEq

/-- Per-user, per-item review record, as stored under `reviewData[qid]`
by `updateUserReviewData` in `src/unnamed/part_004`. -/
structure ReviewRecord where
  difficulty : String
  lastAnswerCorrect : Option Bool
  nextReviewDate : Option Int
  timesReviewed : Nat
deriving DecidableEq

/-- Per-user state. The source keeps all of this in one flat
`users[userId].reviewData` object in which question-keyed records coexist
with reserved structural keys (`sessionSubtopics`, `shownFlashcards`,
`completedSubtopics`, `flashcardSubtopic`, `batchCompletionTime`, batch
fields); `getAllDueQuestions` skips those reserved keys when scanning.
Here the structural keys are separate fields and `reviewData` holds only
the question-keyed records, which renders that skip-list structurally. -/
structure UserState where
  reviewData : List (String × ReviewRecord)
  sessionSubtopics : List String
  completedSubtopics : List String
  shownFlashcards : List String
  dailyShownFlashcards : List String
  currentBatch : List String
  currentBatchIndex : Nat
  previousBatches : List String
  batchCompletionTime : Option Int
deriving DecidableEq

/-- Integer version of JavaScript `Math.ceil(a / b)` for a positive
divisor `b`. -/
def jsCeilDiv (a b : Int) : Int := (a + b - 1) / b

/-- Milliseconds of the five-minute cooldown window
(`5 * 60 * 1000` in the source). -/
def cooldownMs : Int := 5 * 60 * 1000

/-- JavaScript `toLowerCase()` restricted to the ASCII mapping of
`Char.toLower`, written at character level so that it evaluates inside
the kernel. -/
def jsToLower (s : String) : String := ⟨s.data.map Char.toLower⟩

/-- JavaScript `trim()`: drop leading and trailing whitespace, written at
character level so that it evaluates inside the kernel. -/
def jsTrim (s : String) : String :=
  ⟨((s.data.dropWhile Char.isWhitespace).reverse.dropWhile
      Char.isWhitespace).reverse⟩

/-- The `difficulty || 'medium'` defaulting of
`calculateNextReviewDate`: a missing or empty (falsy) difficulty string
becomes `"medium"`. -/
def jsOrMedium : Option String → String
  | none => "medium"
  | some s => if s = "" then "medium" else s

/-- Correct-answer scheduling interval in milliseconds, from the
difficulty ladder of `calculateNextReviewDate`
(`src/services/spacedRepService.js`, lines 22-36): easy 15 min,
medium 25 min, hard 35 min, anything else 25 min. -/
def correctInterval (difficulty : Option String) : Int :=
  let difficultyLower := jsToLower (jsOrMedium difficulty)
  if difficultyLower = "easy" then 15 * 60000
  else if difficultyLower = "medium" then 25 * 60000
  else if difficultyLower = "hard" then 35 * 60000
  else 25 * 60000

/-- Embeds `calculateNextReviewDate(isCorrect, difficulty)` of
`src/services/spacedRepService.js` (lines 12-39). The incorrect branch is
guarded by strict equality `isCorrect === false`; `Date.setMinutes`
arithmetic is absolute-time addition in milliseconds. -/
def calculateNextReviewDate (isCorrect : JSVal) (difficulty : Option String)
    (now : Int) : Int :=
  if isCorrect = .bool false then now + 5 * 60000
  else now + correctInterval difficulty

/-- Embeds `getAllDueQuestions(userId)` of
`src/services/spacedRepService.js` (lines 84-111): every question-keyed
record whose `nextReviewDate` exists and has arrived (`now >= nextReview`)
is due; records without a `nextReviewDate` are not. The reserved-key skip
of the source is structural here (see `UserState`). -/
def getAllDueQuestions (reviewData : List (String × ReviewRecord))
    (now : Int) : List String :=
  (reviewData.filter (fun p =>
    match p.2.nextReviewDate with
    | some d => decide (d ≤ now)
    | none => false)).map (fun p => p.1)

/-- Association-list read of `reviewData[questionId]`. -/
def lookupReview (reviewData : List (String × ReviewRecord))
    (qid : String) : Option ReviewRecord :=
  (reviewData.find? (fun p => p.1 = qid)).map (fun p => p.2)

/-- Normalized content fingerprint used by `composeBatch`
(`src/unnamed/part_007`, lines 238 and 274):
`flashcard.trim().toLowerCase()`. -/
def contentKey (s : String) : String := jsToLower (jsTrim s)

/-- Content fingerprint of a catalog item. -/
def qKey (q : Question) : String := contentKey q.flashcard

/-- Item id of a catalog item (projection, named for readability in
statements). -/
def qId (q : Question) : String := q.id

/-- A question row counts as carrying a flashcard when
`q.flashcard && q.flashcard.trim() !== ''` (the filter building
`allFlashcards` in `composeBatch`, lines 203-205). -/
def hasFlashcard (q : Question) : Bool := decide (jsTrim q.flashcard ≠ "")

/-- Common shape of the two admission loops of `composeBatch`: walk the
candidates and admit one only if it passes `ok` and neither its id nor
its content fingerprint is already among `base` (items admitted by an
earlier phase) or `sel` (items admitted so far in this loop). This is the
source's pair of mutable sets `selectedFlashcardIds` /
`selectedFlashcardTexts` (lines 223-224, 242-249, 313-325) made explicit. -/
def admitDedup (base : List Question) (ok : Question → Bool) :
    List Question → List Question → List Question
  | sel, [] => sel
  | sel, q :: rest =>
    if ok q = true ∧ q.id ∉ (base ++ sel).map qId ∧ qKey q ∉ (base ++ sel).map qKey
    then admitDedup base ok (sel ++ [q]) rest
    else admitDedup base ok sel rest

/-- Priority 1 of `composeBatch` (lines 234-251): iterate the catalog's
flashcard-bearing questions in order and admit those whose id is in the
due set, deduplicating by id and by content fingerprint. The
previous/current-batch exclusion set is deliberately not consulted. -/
def composeDue (allFlashcards : List Question) (dueIds : List String) :
    List Question :=
  admitDedup [] (fun q => decide (q.id ∈ dueIds)) [] allFlashcards

/-- Candidate filter of Priority 2 of `composeBatch` (lines 267-307).
Mirrors the source's checks in order: already selected by id, already
selected by content fingerprint, in the previous/current-batch exclusion
set, and finally the review-record cases — no record admits the item,
while a record with a `nextReviewDate` is rejected whether the date is in
the future (line 297) or not (line 301), and a record without a
`nextReviewDate` is rejected too (line 306). -/
def newCandidatePred (reviewData : List (String × ReviewRecord))
    (excluded selIds selKeys : List String) (now : Int) (q : Question) : Bool :=
  if q.id ∈ selIds then false
  else if qKey q ∈ selKeys then false
  else if q.id ∈ excluded then false
  else
    match lookupReview reviewData q.id with
    | none => true
    | some review =>
      match review.nextReviewDate with
      | some d => if now < d then false else false
      | none => false

/-- The Priority 2 candidate pool (`newFlashcards` in the source),
given the items `dueSel` admitted by Priority 1. -/
def composeNewPool (allFlashcards : List Question)
    (reviewData : List (String × ReviewRecord)) (excluded : List String)
    (dueSel : List Question) (now : Int) : List Question :=
  allFlashcards.filter
    (newCandidatePred reviewData excluded (dueSel.map qId) (dueSel.map qKey) now)

/-- Priority 1 admissions of `composeBatch` for a caller's catalog and
review data: the full `dueFlashcardIds` list before the `slice` at
line 254 (the dedup sets keep all of it). -/
def composeDueOf (catalog : List Question)
    (reviewData : List (String × ReviewRecord)) (now : Int) : List Question :=
  composeDue (catalog.filter hasFlashcard) (getAllDueQuestions reviewData now)

/-- Priority 2 admissions of `composeBatch` (lines 261-326): shuffle the
candidate pool, take as many as the remaining slots
(`Math.max(0, batchSize - limitedDue.length)` is truncated `Nat`
subtraction), and admit them with the dedup re-check of lines 313-325
against everything Priority 1 admitted. `shuffle` stands for the
source's `sort(() => Math.random() - 0.5)` (line 310). -/
def composeNewOf (catalog : List Question)
    (reviewData : List (String × ReviewRecord)) (excluded : List String)
    (now : Int) (shuffle : List Question → List Question) (batchSize : Nat) :
    List Question :=
  admitDedup (composeDueOf catalog reviewData now) (fun _ => true) []
    ((shuffle (composeNewPool (catalog.filter hasFlashcard) reviewData excluded
        (composeDueOf catalog reviewData now) now)).take
      (batchSize - ((composeDueOf catalog reviewData now).take batchSize).length))

/-- Both admission phases of `composeBatch` at question granularity. -/
def composeBatchSelected (catalog : List Question)
    (reviewData : List (String × ReviewRecord)) (excluded : List String)
    (now : Int) (shuffle : List Question → List Question) (batchSize : Nat) :
    List Question × List Question :=
  (composeDueOf catalog reviewData now,
   composeNewOf catalog reviewData excluded now shuffle batchSize)

/-- The question list underlying the id list `composeBatch` returns:
due admissions capped at `batchSize`, then new admissions, the whole
sliced to `batchSize` (lines 329-333). -/
def composeBatchItems (catalog : List Question)
    (reviewData : List (String × ReviewRecord)) (excluded : List String)
    (now : Int) (shuffle : List Question → List Question) (batchSize : Nat) :
    List Question :=
  let p := composeBatchSelected catalog reviewData excluded now shuffle batchSize
  ((p.1.take batchSize) ++ p.2).take batchSize

/-- Insertion-ordered deduplication — the observable content of a
JavaScript `Set` built by repeated `add` and read with `Array.from`. -/
def dedupKeepFirst (l : List String) : List String :=
  l.foldl (fun acc x => if x ∈ acc then acc else acc ++ [x]) []

/-- Result of `composeBatch`: ordered flashcard ids and the distinct
subtopics touched. -/
structure BatchResult where
  flashcardIds : List String
  subtopics : List String
deriving DecidableEq

/-- Embeds `composeBatch(userId, batchSize)` of `src/unnamed/part_007`
(lines 197-339). The caller's user state supplies `reviewData` and the
exclusion set (`previousBatches ++ currentBatch` ids, line 217).
Subtopics are collected from every Priority 1 admission (even beyond the
`batchSize` cap, since the source's `dueSubtopics` set is filled before
the slice) and from the Priority 2 admissions, deduplicated in insertion
order and sliced to `batchSize` (lines 330, 337). -/
def composeBatch (catalog : List Question)
    (reviewData : List (String × ReviewRecord)) (excluded : List String)
    (now : Int) (shuffle : List Question → List Question) (batchSize : Nat) :
    BatchResult :=
  let p := composeBatchSelected catalog reviewData excluded now shuffle batchSize
  let dueSubs := dedupKeepFirst
    ((p.1.filter (fun q => decide (jsTrim q.subTopic ≠ ""))).map (fun q => jsTrim q.subTopic))
  let newSubs := dedupKeepFirst
    ((p.2.filter (fun q => decide (jsTrim q.subTopic ≠ ""))).map (fun q => jsTrim q.subTopic))
  { flashcardIds :=
      (composeBatchItems catalog reviewData excluded now shuffle batchSize).map qId
    subtopics := (dedupKeepFirst (dueSubs ++ newSubs)).take batchSize }

/-- Maximal whitespace-free runs of a character list, in order;
`acc` holds the reversed current run. -/
def wsWords : List Char → List Char → List (List Char)
  | [], acc => if acc.isEmpty then [] else [acc.reverse]
  | c :: cs, acc =>
    if c.isWhitespace then
      if acc.isEmpty then wsWords cs [] else acc.reverse :: wsWords cs []
    else wsWords cs (c :: acc)

/-- Interleave single spaces between runs. -/
def joinWords : List (List Char) → List Char
  | [] => []
  | [w] => w
  | w :: ws => w ++ ' ' :: joinWords ws

/-- Normalized flashcard text used by the controller
(`src/controllers/flashcardController.js`, e.g. lines 268, 401, 433):
`flashcard.trim().toLowerCase().replace(/\s+/g, ' ')` — trim, lowercase,
and collapse whitespace runs to single spaces (on a trimmed string this
is joining its whitespace-separated words with single spaces). -/
def normText (s : String) : String :=
  ⟨joinWords (wsWords (jsToLower (jsTrim s)).data [])⟩

/-- Catalog lookup `data.questions.find(q => q.id === id)`. -/
def findQ (catalog : List Question) (qid : String) : Option Question :=
  catalog.find? (fun q => q.id = qid)

/-- Normalized texts of the already-shown flashcards: the controller walks
the flashcard-bearing questions and collects `normText` of those whose id
is in the given shown set (`flashcardController.js`, lines 394-404 and
494-504). -/
def shownTextsOf (catalog : List Question) (shownSet : List String) :
    List String :=
  (catalog.filter hasFlashcard).filterMap
    (fun q => if q.id ∈ shownSet then some (normText q.flashcard) else none)

/-- Normalized texts of the batch entries before the serving cursor
(`flashcardController.js`, lines 406-415): for each position `i` below
`currentBatchIndex`, resolve the id in the catalog and, when the question
exists with a non-empty (truthy) flashcard, record its normalized text. -/
def servedTextsOf (catalog : List Question) (batch : List String)
    (idx : Nat) : List String :=
  (batch.take idx).filterMap (fun sid =>
    match findQ catalog sid with
    | some q => if q.flashcard ≠ "" then some (normText q.flashcard) else none
    | none => none)

/-- Admission test the in-batch scan applies to one batch entry
(`flashcardController.js`, lines 421-460): the id must resolve to a
question with a truthy, non-blank flashcard, the id must not be in the
session/today shown set, and the normalized text must be in neither the
shown-texts set nor the served-from-this-batch texts set. Returns the
question to serve when admissible. -/
def admitCheck (catalog : List Question)
    (shownSet shownTexts servedTexts : List String) (qid : String) :
    Option Question :=
  match findQ catalog qid with
  | some q =>
    if q.flashcard ≠ "" ∧ jsTrim q.flashcard ≠ "" then
      if qid ∈ shownSet then none
      else if normText q.flashcard ∈ shownTexts then none
      else if normText q.flashcard ∈ servedTexts then none
      else some q
    else none
  | none => none

/-- The `while (nextIndex < currentBatchFlashcards.length)` scan of
`flashcardController.js` (lines 418-460), expressed on the suffix of the
batch starting at the cursor, carrying the absolute index. -/
def scanBatch (catalog : List Question)
    (shownSet shownTexts servedTexts : List String) :
    List String → Nat → Option (Nat × Question)
  | [], _ => none
  | qid :: rest, i =>
    match admitCheck catalog shownSet shownTexts servedTexts qid with
    | some q => some (i, q)
    | none => scanBatch catalog shownSet shownTexts servedTexts rest (i + 1)

/-- `markFlashcardAsShown` (`src/unnamed/part_004`, lines 402-431)
composed with `markFlashcardAsShownToday`. Modelled from the spec:
`markFlashcardAsShownToday` is not under `src/`; the spec's `shownToday`
is a set of item ids, so marking adds the id when absent, exactly like
the session-level function that is under `src/`. -/
def markShown (s : UserState) (qid : String) : UserState :=
  { s with
    shownFlashcards :=
      if qid ∈ s.shownFlashcards then s.shownFlashcards
      else s.shownFlashcards ++ [qid]
    dailyShownFlashcards :=
      if qid ∈ s.dailyShownFlashcards then s.dailyShownFlashcards
      else s.dailyShownFlashcards ++ [qid] }

/-- Outcome of one `serveNext` (`getRandomFlashcardJson`) call. The
session-subtopic logic below the cooldown check (lines 570 onward of
`flashcardController.js`) is outside every claim and is represented by
the opaque `sessionPhase` outcome. -/
inductive ServeOutcome where
  | batchCompleted
  | card (q : Question) (isDueReview : Bool)
  | cooldownRejection (remainingSeconds : Int)
  | sessionPhase
deriving DecidableEq

/-- Embeds `getBatchCompletionTime` (`src/unnamed/part_004`,
lines 528-531): it returns `reviewData.batchCompletionTime || null`, so a
stored anchor of 0 (falsy) reads back as null. Every consumer of the
anchor in the controller goes through this read. -/
def getBatchCompletionTime (s : UserState) : Option Int :=
  match s.batchCompletionTime with
  | some anchor => if anchor = 0 then none else some anchor
  | none => none

/-- Cooldown gate reached when no batch item and no due item was served
(`flashcardController.js`, lines 545-568): an anchored completion time
less than five minutes old yields a 429 rejection carrying the rounded-up
remaining seconds. -/
def serveCooldownCheck (s : UserState) (now : Int) :
    ServeOutcome × UserState :=
  match getBatchCompletionTime s with
  | some anchor =>
    if now - anchor < cooldownMs then
      (.cooldownRejection (jsCeilDiv (cooldownMs - (now - anchor)) 1000), s)
    else (.sessionPhase, s)
  | none => (.sessionPhase, s)

/-- Priority 1 due filter of `serveNext` (`flashcardController.js`,
lines 507-519): flashcard-bearing, globally due, not already shown by id,
not already shown by normalized text. -/
def dueServeCandidates (catalog : List Question) (s : UserState)
    (now : Int) : List Question :=
  let shownSet := s.shownFlashcards ++ s.dailyShownFlashcards
  let shownTexts := shownTextsOf catalog shownSet
  let dueIds := getAllDueQuestions s.reviewData now
  catalog.filter (fun q =>
    hasFlashcard q && decide (q.id ∈ dueIds) &&
    decide (q.id ∉ shownSet) && decide (normText q.flashcard ∉ shownTexts))

/-- Fallback question used to express the random pick
`Math.floor(Math.random() * len)` as indexing with `pick % len`; it is
never selected because indexing happens only into non-empty lists. -/
def defaultQuestion : Question := { id := "", flashcard := "", subTopic := "", topicId := "" }

/-- Priorities of `serveNext` below the in-batch scan
(`flashcardController.js`, lines 484-568): serve a random due,
not-yet-shown flashcard and mark it shown in session and today sets;
otherwise run the cooldown gate. -/
def serveAfterBatch (catalog : List Question) (s : UserState) (now : Int)
    (pick : Nat) : ServeOutcome × UserState :=
  let dueIds := getAllDueQuestions s.reviewData now
  if dueIds ≠ [] then
    let candidates := dueServeCandidates catalog s now
    if candidates ≠ [] then
      let q := candidates.getD (pick % candidates.length) defaultQuestion
      (.card q true, markShown s q.id)
    else serveCooldownCheck s now
  else serveCooldownCheck s now

/-- Embeds the authenticated path of `getRandomFlashcardJson`
(`src/controllers/flashcardController.js`, lines 377-568), the spec's
`serveNext`, down to the cooldown gate. With a non-empty `currentBatch`:
an exhausted cursor answers `allCompleted`; otherwise the scan serves the
first admissible entry, sets the cursor past it and marks it shown
(session + today); a scan with no admissible entry clears the batch and
falls through to the due/cooldown priorities. `getCurrentBatchFlashcards`,
`getCurrentBatchIndex` and `clearCurrentBatch` are not under `src/` and
are modelled from the spec as plain reads/reset of the `BatchState`
fields (`currentBatch`, `servingIndex`). -/
def serveNext (catalog : List Question) (s : UserState) (now : Int)
    (pick : Nat) : ServeOutcome × UserState :=
  if s.currentBatch ≠ [] then
    if s.currentBatch.length ≤ s.currentBatchIndex then (.batchCompleted, s)
    else
      let shownSet := s.shownFlashcards ++ s.dailyShownFlashcards
      let shownTexts := shownTextsOf catalog shownSet
      let servedTexts := servedTextsOf catalog s.currentBatch s.currentBatchIndex
      match scanBatch catalog shownSet shownTexts servedTexts
          (s.currentBatch.drop s.currentBatchIndex) s.currentBatchIndex with
      | some (j, q) =>
        (.card q false, markShown { s with currentBatchIndex := j + 1 } q.id)
      | none =>
        serveAfterBatch catalog
          { s with currentBatch := [], currentBatchIndex := 0 } now pick
  else serveAfterBatch catalog s now pick

/-- Outcome of `completeBatch` (`flashcardController.js`, lines 1212-1301).
`missingTimestamp` is the 400 for a falsy or non-number body timestamp;
`cooldownRejected` the 429; `futureTimestamp` and `staleTimestamp` the
two timestamp-validation 400s. -/
inductive CompleteResult where
  | missingTimestamp
  | cooldownRejected (remainingSeconds : Int)
  | futureTimestamp
  | staleTimestamp
  | success
deriving DecidableEq

/-- Timestamp validation and mutation tail of `completeBatch`
(lines 1250-1296): reject a timestamp more than 1000 ms ahead of `now`,
then one more than 60000 ms behind `now`; otherwise move a non-empty
current batch into the previous-batch history, clear it, and store the
client timestamp as the cooldown anchor. `addToPreviousBatches` and
`clearCurrentBatch` are not under `src/` and are modelled from the spec:
`previousBatches` is the id history used only as an exclusion set, so the
move appends the current batch's ids and resets the batch and cursor. -/
def completeBatchValidate (s : UserState) (now t : Int) :
    CompleteResult × UserState :=
  if now + 1000 < t then (.futureTimestamp, s)
  else if 60000 < now - t then (.staleTimestamp, s)
  else
    let s₁ :=
      if s.currentBatch ≠ [] then
        { s with
          previousBatches := s.previousBatches ++ s.currentBatch
          currentBatch := []
          currentBatchIndex := 0 }
      else s
    (.success, { s₁ with batchCompletionTime := some t })

/-- Embeds `completeBatch(userId, timestamp)`
(`flashcardController.js`, lines 1212-1301). The body timestamp is
`none` when absent or not a number; `0` is falsy and also rejected by
`!timestamp` (line 1222). The active-cooldown rejection (lines 1226-1248)
is checked before the timestamp validation. -/
def completeBatch (s : UserState) (now : Int) (ts : Option Int) :
    CompleteResult × UserState :=
  match ts with
  | none => (.missingTimestamp, s)
  | some t =>
    if t = 0 then (.missingTimestamp, s)
    else
      match getBatchCompletionTime s with
      | some anchor =>
        if now - anchor < cooldownMs then
          (.cooldownRejected (jsCeilDiv (cooldownMs - (now - anchor)) 1000), s)
        else completeBatchValidate s now t
      | none => completeBatchValidate s now t

/-- Response of `getUserCooldown`. -/
structure CooldownStatus where
  canStart : Bool
  remainingSeconds : Int
deriving DecidableEq

/-- Embeds `getUserCooldown` (`flashcardController.js`, lines 1444-1492):
no stored anchor or an elapsed time of at least five minutes answers
`canStart = true` with zero remaining seconds; otherwise the remaining
milliseconds are divided by 1000 and rounded up. -/
def getUserCooldown (s : UserState) (now : Int) : CooldownStatus :=
  match getBatchCompletionTime s with
  | none => { canStart := true, remainingSeconds := 0 }
  | some anchor =>
    let elapsed := now - anchor
    if cooldownMs ≤ elapsed then { canStart := true, remainingSeconds := 0 }
    else
      { canStart := false
        remainingSeconds := jsCeilDiv (cooldownMs - elapsed) 1000 }

/-- Embeds `getAllUniqueSubtopics` (`src/unnamed/part_007`, lines 17-29):
the insertion-ordered set of trimmed subtopic names over questions with a
truthy, non-blank flashcard and a truthy, non-blank subtopic. -/
def getAllUniqueSubtopics (catalog : List Question) : List String :=
  dedupKeepFirst
    ((catalog.filter (fun q =>
      hasFlashcard q && decide (jsTrim q.subTopic ≠ ""))).map (fun q => jsTrim q.subTopic))

/-- Embeds `pickRandomSubtopics(count)` (`src/unnamed/part_007`,
lines 36-51) with the shuffle as a parameter. -/
def pickRandomSubtopics (catalog : List Question)
    (shuffleSub : List String → List String) (count : Nat) : List String :=
  let allSubtopics := getAllUniqueSubtopics catalog
  if allSubtopics = [] then []
  else if allSubtopics.length ≤ count then allSubtopics
  else (shuffleSub allSubtopics).take count

/-- Embeds `startNewSession(userId, subtopics)` (`src/unnamed/part_004`,
lines 352-384): store the session subtopics, reset the session-level
shown list, and delete `batchCompletionTime`. -/
def startNewSession (s : UserState) (subtopics : List String) : UserState :=
  { s with
    sessionSubtopics := subtopics
    shownFlashcards := []
    batchCompletionTime := none }

/-- Outcome of `startSession` (`flashcardController.js`, lines 166-319). -/
inductive StartResult where
  | cooldownActive (remainingSeconds : Int)
  | existingSession (subtopics : List String)
  | noSubtopics
  | started (subtopics : List String)
deriving DecidableEq

/-- Batch-id storage step of `startSession` (lines 254-298): when the
composed batch has ids, drop those already shown today by id or by
normalized text; store the filtered batch (resetting the cursor, as the
source notes `setCurrentBatchFlashcards` does) or clear the batch when
the filter empties it; finally create the session via `startNewSession`.
`setCurrentBatchFlashcards` and `clearCurrentBatch` are not under `src/`
and are modelled from the spec's `BatchState` as writing/clearing
`currentBatch` with `servingIndex := 0`. -/
def startSessionFinish (catalog : List Question) (s : UserState)
    (subtopics : List String) (ids : List String) :
    StartResult × UserState :=
  let s₁ :=
    if ids ≠ [] then
      let dailySet := s.dailyShownFlashcards
      let dailyTexts := shownTextsOf catalog dailySet
      let filtered := ids.filter (fun fid =>
        match findQ catalog fid with
        | some q =>
          if q.flashcard = "" then false
          else if fid ∈ dailySet then false
          else if normText q.flashcard ∈ dailyTexts then false
          else true
        | none => false)
      if filtered ≠ [] then
        { s with currentBatch := filtered, currentBatchIndex := 0 }
      else { s with currentBatch := [], currentBatchIndex := 0 }
    else s
  (.started subtopics, startNewSession s₁ subtopics)

/-- Session-creation core of `startSession` (lines 227-311): compose a
batch of six; when it yields no subtopics fall back to six random
subtopics, failing with a 404 when the catalog has none at all; then
store the (today-filtered) batch ids and create the session. -/
def startSessionCore (catalog : List Question) (s : UserState) (now : Int)
    (shuffleNew : List Question → List Question)
    (shuffleSub : List String → List String) : StartResult × UserState :=
  let batch := composeBatch catalog s.reviewData
    (s.previousBatches ++ s.currentBatch) now shuffleNew 6
  if batch.subtopics = [] then
    if getAllUniqueSubtopics catalog = [] then (.noSubtopics, s)
    else
      startSessionFinish catalog s (pickRandomSubtopics catalog shuffleSub 6)
        batch.flashcardIds
  else startSessionFinish catalog s batch.subtopics batch.flashcardIds

/-- Embeds `startSession(userId, forceNew)` (`flashcardController.js`,
lines 166-319). The cooldown gate (lines 192-213) runs only when
`forceNew` is set; a non-forced call with stored session subtopics
returns them unchanged (lines 220-225); otherwise the session-creation
core runs. -/
def startSession (catalog : List Question) (s : UserState) (now : Int)
    (forceNew : Bool) (shuffleNew : List Question → List Question)
    (shuffleSub : List String → List String) : StartResult × UserState :=
  if forceNew then
    match getBatchCompletionTime s with
    | some anchor =>
      if now - anchor < cooldownMs then
        (.cooldownActive (jsCeilDiv (cooldownMs - (now - anchor)) 1000), s)
      else startSessionCore catalog s now shuffleNew shuffleSub
    | none => startSessionCore catalog s now shuffleNew shuffleSub
  else
    if s.sessionSubtopics ≠ [] then (.existingSession s.sessionSubtopics, s)
    else startSessionCore catalog s now shuffleNew shuffleSub

/-- The due, reviewable items of a user in stable catalog order: the
flashcard-bearing catalog questions whose id `getAllDueQuestions`
reports as due. -/
def dueReviewable (catalog : List Question)
    (reviewData : List (String × ReviewRecord)) (now : Int) : List Question :=
  (catalog.filter hasFlashcard).filter
    (fun q => decide (q.id ∈ getAllDueQuestions reviewData now))

/-- Whether the in-batch scan of `serveNext` would serve the batch entry
at absolute position `i` of the current batch, for the shown sets the
scan computes from the given state. -/
def batchAdmissibleAt (catalog : List Question) (s : UserState) (i : Nat) :
    Bool :=
  let shownSet := s.shownFlashcards ++ s.dailyShownFlashcards
  let shownTexts := shownTextsOf catalog shownSet
  let servedTexts := servedTextsOf catalog s.currentBatch s.currentBatchIndex
  match s.currentBatch[i]? with
  | some qid => (admitCheck catalog shownSet shownTexts servedTexts qid).isSome
  | none => false

/-- Modelled from the spec's words for comparison with the source's
Priority 2 pool: "candidate pool = reviewable items that are new (no
record, or `timesReviewed == 0`) AND id not in `exclusion` AND not
already admitted (id or contentKey)". -/
def specNewPool (allFlashcards : List Question)
    (reviewData : List (String × ReviewRecord)) (excluded : List String)
    (dueSel : List Question) : List Question :=
  allFlashcards.filter (fun q =>
    (match lookupReview reviewData q.id with
     | none => true
     | some review => decide (review.timesReviewed = 0)) &&
    decide (q.id ∉ excluded) &&
    decide (q.id ∉ dueSel.map qId) && decide (qKey q ∉ dueSel.map qKey))

/-- Empty user state used by concrete instances. -/
def exEmptyState : UserState :=
  { reviewData := []
    sessionSubtopics := []
    completedSubtopics := []
    shownFlashcards := []
    dailyShownFlashcards := []
    currentBatch := []
    currentBatchIndex := 0
    previousBatches := []
    batchCompletionTime := none }

/-- A review record that is due at any instant from 0 on. -/
def exDueRec : ReviewRecord :=
  { difficulty := "medium", lastAnswerCorrect := some false
    nextReviewDate := some 0, timesReviewed := 1 }

/-- Two catalog items whose flashcard texts differ only in case, so they
share a content fingerprint. -/
def exQ1 : Question :=
  { id := "q1", flashcard := "Dup", subTopic := "S1", topicId := "t1" }

/-- See `exQ1`. -/
def exQ2 : Question :=
  { id := "q2", flashcard := "dup", subTopic := "S2", topicId := "t1" }

/-- Review data making both `exQ1` and `exQ2` due. -/
def exRD2 : List (String × ReviewRecord) := [("q1", exDueRec), ("q2", exDueRec)]

/-- Catalog item for the Priority 2 pool instance. -/
def exQ3 : Question :=
  { id := "q3", flashcard := "hello", subTopic := "S3", topicId := "t1" }

/-- A record whose `timesReviewed` is 0 (and no `nextReviewDate`), as a
rating-only record would be: "new" by the spec's definition. -/
def exRD3 : List (String × ReviewRecord) :=
  [("q3", { difficulty := "medium", lastAnswerCorrect := none
            nextReviewDate := none, timesReviewed := 0 })]

/-- Catalog item for the serve-time instances. -/
def exQ4 : Question :=
  { id := "q4", flashcard := "world", subTopic := "S4", topicId := "t1" }

/-- State whose only item is due and not yet shown. -/
def exS4w : UserState := { exEmptyState with reviewData := [("q4", exDueRec)] }

/-- State whose only item is due but already shown today, with a cooldown
anchored 100 ms ago at query time 1000. -/
def exS4c : UserState :=
  { exEmptyState with
    reviewData := [("q4", exDueRec)]
    dailyShownFlashcards := ["q4"]
    batchCompletionTime := some 900 }

/-- Two catalog items for the in-batch scan instance. -/
def exQA : Question :=
  { id := "a", flashcard := "alpha", subTopic := "S", topicId := "t" }

/-- See `exQA`. -/
def exQB : Question :=
  { id := "b", flashcard := "beta", subTopic := "S", topicId := "t" }

/-- Active batch of two entries whose first entry is already in the
today-shown set. -/
def exS5 : UserState :=
  { exEmptyState with
    currentBatch := ["a", "b"]
    dailyShownFlashcards := ["a"] }

/-- State with an active cooldown anchored at 900 — a nonzero (truthy)
anchor, which `getBatchCompletionTime` preserves. -/
def exCooldownState : UserState :=
  { exEmptyState with batchCompletionTime := some 900 }

/-- Catalog item for the session-start instance. -/
def exQ5 : Question :=
  { id := "q5", flashcard := "hello", subTopic := "TopicS", topicId := "t" }

/-- No stored session, cooldown anchored at 50 (nonzero, so the read
preserves it; still active at 100). -/
def exS9 : UserState := { exEmptyState with batchCompletionTime := some 50 }

theorem correctInterval_ne_incorrect (d : Option String) :
    correctInterval d ≠ 5 * 60000 := by
  simp only [correctInterval]
  split
  · decide
  · split
    · decide
    · split
      · decide
      · decide

/-- C8: `calculateNextReviewDate` returns now + 5 minutes whenever the
correctness flag is false, for every difficulty; and when it is true it
returns now + 15 minutes for easy, now + 25 minutes for medium,
now + 35 minutes for hard, and now + 25 minutes (the medium interval) for
a missing difficulty or any string that is not one of the three names. -/
theorem calculateNextReviewDate_intervals (now : Int) (d : Option String) :
    calculateNextReviewDate (.bool false) d now = now + 5 * 60000 ∧
    calculateNextReviewDate (.bool true) (some "easy") now = now + 15 * 60000 ∧
    calculateNextReviewDate (.bool true) (some "medium") now = now + 25 * 60000 ∧
    calculateNextReviewDate (.bool true) (some "hard") now = now + 35 * 60000 ∧
    calculateNextReviewDate (.bool true) none now = now + 25 * 60000 ∧
    (∀ s : String, jsToLower s ≠ "easy" → jsToLower s ≠ "medium" →
      jsToLower s ≠ "hard" →
      calculateNextReviewDate (.bool true) (some s) now = now + 25 * 60000) := by
  refine ⟨rfl, rfl, rfl, rfl, rfl, ?_⟩
  intro s h1 h2 h3
  show (if (JSVal.bool true) = (JSVal.bool false) then now + 5 * 60000
        else now + correctInterval (some s)) = now + 25 * 60000
  rw [if_neg (by decide)]
  congr 1
  simp only [correctInterval, jsOrMedium]
  by_cases hse : s = ""
  · subst hse; rfl
  · simp only [if_neg hse, if_neg h1, if_neg h2, if_neg h3]

theorem calculateNextReviewDate_intervals_witness :
    calculateNextReviewDate (.bool true) (some "Tricky") 0 = 1500000 := by
  have h := (calculateNextReviewDate_intervals 0 none).2.2.2.2.2 "Tricky"
    (by decide) (by decide) (by decide)
  rw [h]; decide

/-- C10: `calculateNextReviewDate` tests the correctness flag with strict
equality to the boolean false; every other runtime value (true, null,
undefined, a number, a string) is scheduled with the difficulty-based
interval, never with the 5-minute resurface. -/
theorem calculateNextReviewDate_strict_false (v : JSVal) (d : Option String)
    (now : Int) (hv : v ≠ .bool false) :
    calculateNextReviewDate v d now = now + correctInterval d ∧
    calculateNextReviewDate v d now ≠ now + 5 * 60000 := by
  have h : calculateNextReviewDate v d now = now + correctInterval d := by
    simp only [calculateNextReviewDate, if_neg hv]
  refine ⟨h, ?_⟩
  rw [h]
  intro hc
  exact correctInterval_ne_incorrect d (by omega)

theorem calculateNextReviewDate_strict_false_witness :
    calculateNextReviewDate .null (some "easy") 0 = 900000 ∧
    calculateNextReviewDate JSVal.undefined (some "hard") 0 = 2100000 ∧
    calculateNextReviewDate (.num 0) none 0 = 1500000 := by
  have h1 := calculateNextReviewDate_strict_false .null (some "easy") 0 (by decide)
  have h2 := calculateNextReviewDate_strict_false JSVal.undefined (some "hard") 0 (by decide)
  have h3 := calculateNextReviewDate_strict_false (.num 0) none 0 (by decide)
  exact ⟨by rw [h1.1]; decide, by rw [h2.1]; decide, by rw [h3.1]; decide⟩

theorem completeBatchValidate_state (s : UserState) (now t : Int) :
    ((completeBatchValidate s now t).1 ≠ .success →
      (completeBatchValidate s now t).2 = s) ∧
    ((completeBatchValidate s now t).1 = .success →
      (completeBatchValidate s now t).2.batchCompletionTime = some t) := by
  by_cases h1 : now + 1000 < t
  · simp [completeBatchValidate, h1]
  · by_cases h2 : 60000 < now - t
    · simp [completeBatchValidate, h1, h2]
    · constructor
      · intro hns
        exact absurd (by simp [completeBatchValidate, h1, h2]) hns
      · intro _
        simp only [completeBatchValidate, if_neg h1, if_neg h2]

theorem completeBatch_success_anchor (s : UserState) (now t : Int)
    (hok : (completeBatch s now (some t)).1 = .success) :
    (completeBatch s now (some t)).2.batchCompletionTime = some t := by
  by_cases h0 : t = 0
  · simp [completeBatch, h0] at hok
  · cases hb : getBatchCompletionTime s with
    | some anchor =>
      by_cases hc : now - anchor < cooldownMs
      · simp [completeBatch, h0, hb, hc] at hok
      · have h := completeBatchValidate_state s now t
        simp only [completeBatch, if_neg h0, hb, if_neg hc] at hok ⊢
        exact h.2 hok
    | none =>
      have h := completeBatchValidate_state s now t
      simp only [completeBatch, if_neg h0, hb] at hok ⊢
      exact h.2 hok

/-- C7: after a successful `completeBatch` with client timestamp `t`, the
stored cooldown anchor is `t`; `getUserCooldown` then reports
`canStart = false` with remaining seconds equal to 300 minus the elapsed
whole seconds (rounding the remainder up) at every query instant before
`t` + 5 minutes, and `canStart = true` with 0 remaining seconds at or
after that; with no stored anchor it reports `canStart = true`. -/
theorem completeBatch_cooldown_window (s : UserState) (now t q : Int)
    (hok : (completeBatch s now (some t)).1 = .success) :
    (completeBatch s now (some t)).2.batchCompletionTime = some t ∧
    (q < t + cooldownMs →
      getUserCooldown (completeBatch s now (some t)).2 q =
        { canStart := false, remainingSeconds := 300 - (q - t) / 1000 }) ∧
    (t + cooldownMs ≤ q →
      getUserCooldown (completeBatch s now (some t)).2 q =
        { canStart := true, remainingSeconds := 0 }) ∧
    (∀ s₂ : UserState, s₂.batchCompletionTime = none →
      getUserCooldown s₂ q = { canStart := true, remainingSeconds := 0 }) := by
  have ht0 : t ≠ 0 := by
    intro h0
    subst h0
    simp [completeBatch] at hok
  have hA := completeBatch_success_anchor s now t hok
  have hG : getBatchCompletionTime (completeBatch s now (some t)).2 =
      some t := by
    simp only [getBatchCompletionTime, hA]
    rw [if_neg ht0]
  refine ⟨hA, ?_, ?_, ?_⟩
  · intro hq
    simp only [cooldownMs] at hq
    simp only [getUserCooldown, hG]
    rw [if_neg (by simp only [cooldownMs]; omega)]
    have : jsCeilDiv (cooldownMs - (q - t)) 1000 = 300 - (q - t) / 1000 := by
      simp only [jsCeilDiv, cooldownMs]
      omega
    rw [this]
  · intro hq
    simp only [getUserCooldown, hG]
    rw [if_pos (by simp only [cooldownMs] at hq ⊢; omega)]
  · intro s₂ h₂
    simp only [getUserCooldown, getBatchCompletionTime, h₂]

theorem completeBatch_cooldown_window_witness :
    (completeBatch exEmptyState 100000 (some 100000)).1 = .success ∧
    getUserCooldown (completeBatch exEmptyState 100000 (some 100000)).2 100000 =
      { canStart := false, remainingSeconds := 300 } ∧
    getUserCooldown (completeBatch exEmptyState 100000 (some 100000)).2 500000 =
      { canStart := true, remainingSeconds := 0 } := by
  have hok : (completeBatch exEmptyState 100000 (some 100000)).1 = .success := by
    decide
  have h1 := completeBatch_cooldown_window exEmptyState 100000 100000 100000 hok
  have h2 := completeBatch_cooldown_window exEmptyState 100000 100000 500000 hok
  refine ⟨hok, ?_, h2.2.2.1 (by decide)⟩
  have := h1.2.1 (by decide)
  rw [this]
  decide

/-- C6 counterexample: with a cooldown anchored at 900 (a truthy anchor,
preserved by the `getBatchCompletionTime` read) and server time 1000, the
client timestamp 1000000 is more than 1 second in the future, yet
`completeBatch` rejects with the cooldown error, not a
timestamp-validation error — the cooldown check runs first. -/
theorem completeBatch_future_under_cooldown_counterexample :
    getBatchCompletionTime exCooldownState = some 900 ∧
    (1000 : Int) - 900 < cooldownMs ∧
    (1000 : Int) + 1000 < 1000000 ∧
    (completeBatch exCooldownState 1000 (some 1000000)).1 =
      .cooldownRejected 300 ∧
    (completeBatch exCooldownState 1000 (some 1000000)).1 ≠ .futureTimestamp ∧
    (completeBatch exCooldownState 1000 (some 1000000)).1 ≠ .staleTimestamp ∧
    (completeBatch exCooldownState 1000 (some 1000000)).1 ≠
      .missingTimestamp := by
  refine ⟨by decide, by decide, by decide, by decide, ?_, ?_, ?_⟩ <;>
    · intro h
      rw [show (completeBatch exCooldownState 1000 (some 1000000)).1 =
            .cooldownRejected 300 by decide] at h
      exact CompleteResult.noConfusion h

/-- C6 (amended): `completeBatch` first rejects a missing, non-numeric or
zero (falsy) timestamp; with a valid timestamp it rejects with the
cooldown error whenever a cooldown is already active — the anchor being
read through `getBatchCompletionTime`, whose `|| null` coercion treats a
stored 0 as absent; only with no active cooldown does it reject with a
validation error a timestamp more than 1 second later than server time
or, failing that, one more than 60 seconds earlier; and no rejection of
any kind mutates the per-user state. -/
theorem completeBatch_reject_behaviour (s : UserState) (now t : Int) :
    ((completeBatch s now none).1 = .missingTimestamp ∧
      (completeBatch s now none).2 = s) ∧
    ((completeBatch s now (some t)).1 ≠ .success →
      (completeBatch s now (some t)).2 = s) ∧
    (∀ anchor, getBatchCompletionTime s = some anchor →
      now - anchor < cooldownMs → t ≠ 0 →
      (completeBatch s now (some t)).1 =
        .cooldownRejected (jsCeilDiv (cooldownMs - (now - anchor)) 1000)) ∧
    ((∀ anchor, getBatchCompletionTime s = some anchor →
        cooldownMs ≤ now - anchor) → t ≠ 0 → now + 1000 < t →
      (completeBatch s now (some t)).1 = .futureTimestamp) ∧
    ((∀ anchor, getBatchCompletionTime s = some anchor →
        cooldownMs ≤ now - anchor) → t ≠ 0 → ¬ (now + 1000 < t) →
      60000 < now - t →
      (completeBatch s now (some t)).1 = .staleTimestamp) := by
  refine ⟨⟨rfl, rfl⟩, ?_, ?_, ?_, ?_⟩
  · intro hns
    by_cases h0 : t = 0
    · simp [completeBatch, h0]
    · cases hb : getBatchCompletionTime s with
      | some anchor =>
        by_cases hc : now - anchor < cooldownMs
        · simp [completeBatch, h0, hb, hc]
        · simp only [completeBatch, if_neg h0, hb, if_neg hc] at hns ⊢
          exact (completeBatchValidate_state s now t).1 hns
      | none =>
        simp only [completeBatch, if_neg h0, hb] at hns ⊢
        exact (completeBatchValidate_state s now t).1 hns
  · intro anchor hb hc h0
    simp [completeBatch, h0, hb, hc]
  · intro hno h0 hfut
    cases hb : getBatchCompletionTime s with
    | some anchor =>
      have hc : ¬ (now - anchor < cooldownMs) := by
        have := hno anchor hb
        omega
      simp [completeBatch, h0, hb, hc, completeBatchValidate, hfut]
    | none =>
      simp [completeBatch, h0, hb, completeBatchValidate, hfut]
  · intro hno h0 hfut hstale
    cases hb : getBatchCompletionTime s with
    | some anchor =>
      have hc : ¬ (now - anchor < cooldownMs) := by
        have := hno anchor hb
        omega
      simp [completeBatch, h0, hb, hc, completeBatchValidate, hfut, hstale]
    | none =>
      simp [completeBatch, h0, hb, completeBatchValidate, hfut, hstale]

theorem completeBatch_reject_behaviour_witness :
    (completeBatch exCooldownState 1000 (some 5000)).1 =
      .cooldownRejected 300 ∧
    (completeBatch exCooldownState 1000 (some 5000)).2 = exCooldownState ∧
    (completeBatch exEmptyState 1000 (some 5000)).1 = .futureTimestamp ∧
    (completeBatch exEmptyState 200000 (some 1000)).1 = .staleTimestamp ∧
    (completeBatch exEmptyState 200000 none).2 = exEmptyState := by
  have h1 := completeBatch_reject_behaviour exCooldownState 1000 5000
  have h2 := completeBatch_reject_behaviour exEmptyState 1000 5000
  have h3 := completeBatch_reject_behaviour exEmptyState 200000 1000
  refine ⟨?_, ?_, ?_, ?_, h3.1.2⟩
  · have := h1.2.2.1 900 (by decide) (by decide) (by decide)
    rw [this]
    decide
  · refine h1.2.1 ?_
    intro h
    rw [show (completeBatch exCooldownState 1000 (some 5000)).1 =
          .cooldownRejected 300 by decide] at h
    exact CompleteResult.noConfusion h
  · exact h2.2.2.2.1 (by intro anchor h; exact Option.noConfusion h)
      (by decide) (by decide)
  · exact h3.2.2.2.2 (by intro anchor h; exact Option.noConfusion h)
      (by decide) (by decide) (by decide)

theorem nodup_snoc {α : Type} {l : List α} {a : α} (h1 : l.Nodup)
    (h2 : a ∉ l) : (l ++ [a]).Nodup := by
  simp [List.nodup_append, h1, h2]

theorem admitDedup_nodup (ok : Question → Bool) (l : List Question) :
    ∀ (sel base : List Question),
      ((base ++ sel).map qId).Nodup → ((base ++ sel).map qKey).Nodup →
      ((base ++ admitDedup base ok sel l).map qId).Nodup ∧
      ((base ++ admitDedup base ok sel l).map qKey).Nodup := by
  induction l with
  | nil =>
    intro sel base h1 h2
    simp only [admitDedup]
    exact ⟨h1, h2⟩
  | cons q rest ih =>
    intro sel base h1 h2
    simp only [admitDedup]
    split
    case isTrue h =>
      obtain ⟨hok, hid, hkey⟩ := h
      refine ih (sel ++ [q]) base ?_ ?_
      · rw [← List.append_assoc, List.map_append]
        exact nodup_snoc (by simpa using h1) (by simpa [qId] using hid)
      · rw [← List.append_assoc, List.map_append]
        exact nodup_snoc (by simpa using h2) (by simpa using hkey)
    case isFalse h => exact ih sel base h1 h2

theorem admitDedup_eq_filter (ok : Question → Bool) (l : List Question) :
    ∀ sel : List Question,
      ((sel ++ l).map qId).Nodup →
      (((sel.map qKey) ++ ((l.filter ok).map qKey))).Nodup →
      admitDedup [] ok sel l = sel ++ l.filter ok := by
  induction l with
  | nil => intro sel _ _; simp [admitDedup]
  | cons q rest ih =>
    intro sel h1 h2
    by_cases hok : ok q = true
    · have hid : q.id ∉ ([] ++ sel).map qId := by
        simp only [List.nil_append]
        rw [List.map_append] at h1
        rcases (List.nodup_append.mp h1) with ⟨_, _, hdisj⟩
        intro hmem
        exact hdisj hmem (by simp [qId])
      have hkey : qKey q ∉ ([] ++ sel).map qKey := by
        simp only [List.nil_append]
        rw [List.filter_cons_of_pos hok] at h2
        rcases (List.nodup_append.mp h2) with ⟨_, _, hdisj⟩
        intro hmem
        exact hdisj hmem (by simp)
      rw [admitDedup, if_pos ⟨hok, hid, hkey⟩]
      rw [ih (sel ++ [q]) ?_ ?_]
      · simp [List.filter_cons_of_pos hok]
      · simpa using h1
      · rw [List.filter_cons_of_pos hok] at h2
        simpa using h2
    · rw [admitDedup, if_neg (fun hc => hok hc.1)]
      rw [ih sel ?_ ?_]
      · rw [List.filter_cons_of_neg (by simpa using hok)]
      · refine List.Nodup.sublist ?_ h1
        exact ((List.sublist_cons_self q rest).append_left sel).map qId
      · rw [List.filter_cons_of_neg (by simpa using hok)] at h2
        exact h2

/-- C1: for every catalog, user review data, exclusion set, instant,
shuffle outcome and batch size, the id list `composeBatch` returns has no
duplicate id, the underlying admitted items carry pairwise distinct
content fingerprints, and the list's length is at most the batch size. -/
theorem composeBatch_dedup (catalog : List Question)
    (rd : List (String × ReviewRecord)) (excluded : List String) (now : Int)
    (shuffle : List Question → List Question) (batchSize : Nat) :
    (composeBatch catalog rd excluded now shuffle batchSize).flashcardIds.Nodup ∧
    ((composeBatchItems catalog rd excluded now shuffle batchSize).map qKey).Nodup ∧
    (composeBatch catalog rd excluded now shuffle
        batchSize).flashcardIds.length ≤ batchSize := by
  have hids : (composeBatch catalog rd excluded now shuffle
      batchSize).flashcardIds =
      (composeBatchItems catalog rd excluded now shuffle batchSize).map qId := rfl
  have h1 := admitDedup_nodup
    (fun q => decide (q.id ∈ getAllDueQuestions rd now))
    (catalog.filter hasFlashcard) [] [] (by simp) (by simp)
  simp only [List.nil_append] at h1
  have hD : composeDueOf catalog rd now =
      admitDedup [] (fun q => decide (q.id ∈ getAllDueQuestions rd now)) []
        (catalog.filter hasFlashcard) := rfl
  rw [← hD] at h1
  have h2 := admitDedup_nodup (fun _ => true)
    ((shuffle (composeNewPool (catalog.filter hasFlashcard) rd excluded
        (composeDueOf catalog rd now) now)).take
      (batchSize - ((composeDueOf catalog rd now).take batchSize).length))
    [] (composeDueOf catalog rd now)
    (by simpa using h1.1) (by simpa using h1.2)
  have hN : composeNewOf catalog rd excluded now shuffle batchSize =
      admitDedup (composeDueOf catalog rd now) (fun _ => true) []
        ((shuffle (composeNewPool (catalog.filter hasFlashcard) rd excluded
            (composeDueOf catalog rd now) now)).take
          (batchSize - ((composeDueOf catalog rd now).take batchSize).length)) :=
    rfl
  rw [← hN] at h2
  have hitems : composeBatchItems catalog rd excluded now shuffle batchSize =
      ((composeDueOf catalog rd now).take batchSize ++
        composeNewOf catalog rd excluded now shuffle batchSize).take batchSize :=
    rfl
  have hsub : List.Sublist
      (composeBatchItems catalog rd excluded now shuffle batchSize)
      (composeDueOf catalog rd now ++
        composeNewOf catalog rd excluded now shuffle batchSize) := by
    rw [hitems]
    exact (List.take_sublist _ _).trans
      (List.Sublist.append (List.take_sublist _ _) (List.Sublist.refl _))
  refine ⟨?_, ?_, ?_⟩
  · rw [hids]
    exact List.Nodup.sublist (hsub.map qId) h2.1
  · exact List.Nodup.sublist (hsub.map qKey) h2.2
  · rw [hids, List.length_map, hitems, List.length_take]
    exact min_le_left _ _

/-- C2 counterexample: two due reviewable items whose flashcard texts
differ only in case share a content fingerprint, so the text dedup of
Priority 1 admits only the first — the result's first k ids are not the k
due items. -/
theorem composeBatch_duplicate_text_counterexample :
    (dueReviewable [exQ1, exQ2] exRD2 10).length = 2 ∧
    ((2 : Nat) ≤ 6) ∧
    (composeBatch [exQ1, exQ2] exRD2 [] 10 id 6).flashcardIds = ["q1"] ∧
    (composeBatch [exQ1, exQ2] exRD2 [] 10 id 6).flashcardIds.take 2 ≠
      (dueReviewable [exQ1, exQ2] exRD2 10).map qId := by decide

/-- C2 (amended): when the catalog's flashcard-bearing items have
pairwise distinct ids, the user's due reviewable items have pairwise
distinct content fingerprints, and there are at most `batchSize` of
them, the first k ids of `composeBatch`'s result are exactly those k due
items in stable catalog order; the exclusion set is universally
quantified, so a due item is admitted even when its id lies in the
previous/current-batch exclusion set. -/
theorem composeBatch_due_first (catalog : List Question)
    (rd : List (String × ReviewRecord)) (excluded : List String) (now : Int)
    (shuffle : List Question → List Question) (batchSize : Nat)
    (hcat : ((catalog.filter hasFlashcard).map qId).Nodup)
    (hkeys : ((dueReviewable catalog rd now).map qKey).Nodup)
    (hlen : (dueReviewable catalog rd now).length ≤ batchSize) :
    (composeBatch catalog rd excluded now shuffle batchSize).flashcardIds.take
        (dueReviewable catalog rd now).length =
      (dueReviewable catalog rd now).map qId ∧
    ∀ q ∈ dueReviewable catalog rd now,
      qId q ∈ (composeBatch catalog rd excluded now shuffle
        batchSize).flashcardIds := by
  have hfilter : (catalog.filter hasFlashcard).filter
      (fun q => decide (q.id ∈ getAllDueQuestions rd now)) =
      dueReviewable catalog rd now := rfl
  have hD : composeDueOf catalog rd now = dueReviewable catalog rd now := by
    have h := admitDedup_eq_filter
      (fun q => decide (q.id ∈ getAllDueQuestions rd now))
      (catalog.filter hasFlashcard) []
      (by simpa using hcat)
      (by
        simp only [List.map_nil, List.nil_append]
        rw [hfilter]
        exact hkeys)
    rw [List.nil_append, hfilter] at h
    exact h
  have hids : (composeBatch catalog rd excluded now shuffle
      batchSize).flashcardIds =
      (((composeDueOf catalog rd now).take batchSize ++
        composeNewOf catalog rd excluded now shuffle batchSize).take
        batchSize).map qId := rfl
  rw [hids, hD, List.take_of_length_le hlen]
  have hstep :
      ((((dueReviewable catalog rd now) ++
          composeNewOf catalog rd excluded now shuffle batchSize).take
          batchSize).map qId).take (dueReviewable catalog rd now).length =
      (dueReviewable catalog rd now).map qId := by
    rw [List.map_take, List.take_take, min_eq_left hlen, List.map_append]
    rw [show (dueReviewable catalog rd now).length =
        ((dueReviewable catalog rd now).map qId).length from
      (List.length_map _ _).symm]
    exact List.take_left _ _
  refine ⟨hstep, ?_⟩
  intro q hq
  have hmem : qId q ∈ ((((dueReviewable catalog rd now) ++
      composeNewOf catalog rd excluded now shuffle batchSize).take
      batchSize).map qId).take (dueReviewable catalog rd now).length := by
    rw [hstep]
    exact List.mem_map_of_mem qId hq
  exact List.take_subset _ _ hmem

theorem composeBatch_due_first_witness :
    (composeBatch [exQ1, exQ4] [("q1", exDueRec), ("q4", exDueRec)] ["q1"]
        10 id 6).flashcardIds.take 2 = ["q1", "q4"] ∧
    "q1" ∈ (composeBatch [exQ1, exQ4] [("q1", exDueRec), ("q4", exDueRec)]
        ["q1"] 10 id 6).flashcardIds := by
  have h := composeBatch_due_first [exQ1, exQ4]
    [("q1", exDueRec), ("q4", exDueRec)] ["q1"] 10 id 6
    (by decide) (by decide) (by decide)
  have hlen2 : (dueReviewable [exQ1, exQ4]
      [("q1", exDueRec), ("q4", exDueRec)] 10).length = 2 := by decide
  constructor
  · have h1 := h.1
    rw [hlen2] at h1
    rw [h1]
    decide
  · exact h.2 exQ1 (by decide)

/-- C3 counterexample: an item whose ReviewRecord has `timesReviewed = 0`
(and no `nextReviewDate`) is "new" by the claim's definition, yet the
source's Priority 2 pool rejects every item that has any record at all,
so the pools disagree. -/
theorem composeNewPool_timesReviewed_counterexample :
    composeNewPool [exQ3] exRD3 [] [] 0 = [] ∧
    specNewPool [exQ3] exRD3 [] [] = [exQ3] ∧
    composeNewPool [exQ3] exRD3 [] [] 0 ≠ specNewPool [exQ3] exRD3 [] [] := by
  decide

/-- C3 (amended): the Priority 2 candidate pool is exactly the
flashcard-bearing items that have no ReviewRecord at all — an existing
record excludes the item even when `timesReviewed` is 0 — whose id is not
in the previous/current-batch exclusion set, and which were not already
admitted by Priority 1 by id or by content fingerprint. -/
theorem composeNewPool_characterization (allF : List Question)
    (rd : List (String × ReviewRecord)) (excluded : List String)
    (dueSel : List Question) (now : Int) (q : Question) :
    q ∈ composeNewPool allF rd excluded dueSel now ↔
      q ∈ allF ∧ lookupReview rd q.id = none ∧ q.id ∉ excluded ∧
        q.id ∉ dueSel.map qId ∧ qKey q ∉ dueSel.map qKey := by
  simp only [composeNewPool, List.mem_filter]
  constructor
  · rintro ⟨hq, hpred⟩
    by_cases h1 : q.id ∈ dueSel.map qId
    · simp [newCandidatePred, h1] at hpred
    by_cases h2 : qKey q ∈ dueSel.map qKey
    · simp [newCandidatePred, h1, h2] at hpred
    by_cases h3 : q.id ∈ excluded
    · simp [newCandidatePred, h1, h2, h3] at hpred
    cases hl : lookupReview rd q.id with
    | none => exact ⟨hq, rfl, h3, h1, h2⟩
    | some review =>
      exfalso
      cases hr : review.nextReviewDate with
      | some d => simp [newCandidatePred, h1, h2, h3, hl, hr] at hpred
      | none => simp [newCandidatePred, h1, h2, h3, hl, hr] at hpred
  · rintro ⟨hq, hl, h3, h1, h2⟩
    refine ⟨hq, ?_⟩
    simp [newCandidatePred, h1, h2, h3, hl]

theorem admitCheck_some (catalog : List Question) (ss st sv : List String)
    (qid : String) (q : Question)
    (h : admitCheck catalog ss st sv qid = some q) :
    findQ catalog qid = some q ∧ q.id = qid ∧ q.flashcard ≠ "" ∧
    jsTrim q.flashcard ≠ "" ∧ qid ∉ ss ∧ normText q.flashcard ∉ st ∧
    normText q.flashcard ∉ sv := by
  unfold admitCheck at h
  cases hf : findQ catalog qid with
  | none => rw [hf] at h; exact Option.noConfusion h
  | some q' =>
    rw [hf] at h
    have h' : (if q'.flashcard ≠ "" ∧ jsTrim q'.flashcard ≠ "" then
        if qid ∈ ss then none
        else if normText q'.flashcard ∈ st then none
        else if normText q'.flashcard ∈ sv then none
        else some q'
      else none) = some q := h
    by_cases h1 : q'.flashcard ≠ "" ∧ jsTrim q'.flashcard ≠ ""
    · rw [if_pos h1] at h'
      by_cases h2 : qid ∈ ss
      · rw [if_pos h2] at h'; exact Option.noConfusion h'
      rw [if_neg h2] at h'
      by_cases h3 : normText q'.flashcard ∈ st
      · rw [if_pos h3] at h'; exact Option.noConfusion h'
      rw [if_neg h3] at h'
      by_cases h4 : normText q'.flashcard ∈ sv
      · rw [if_pos h4] at h'; exact Option.noConfusion h'
      rw [if_neg h4] at h'
      obtain rfl := Option.some.inj h'
      have hid : q'.id = qid := by
        have hp := List.find?_some hf
        exact of_decide_eq_true hp
      exact ⟨rfl, hid, h1.1, h1.2, h2, h3, h4⟩
    · rw [if_neg h1] at h'; exact Option.noConfusion h'

theorem scanBatch_least (catalog : List Question) (ss st sv : List String)
    (l : List String) :
    ∀ (k base : Nat) (qid : String) (q : Question),
      l[k]? = some qid →
      admitCheck catalog ss st sv qid = some q →
      (∀ m, m < k → ∀ sid, l[m]? = some sid →
        admitCheck catalog ss st sv sid = none) →
      scanBatch catalog ss st sv l base = some (base + k, q) := by
  induction l with
  | nil => intro k base qid q hk; simp at hk
  | cons x rest ih =>
    intro k base qid q hk hadm hmin
    cases k with
    | zero =>
      rw [List.getElem?_cons_zero] at hk
      obtain rfl := Option.some.inj hk
      simp only [scanBatch, hadm]
      rfl
    | succ k' =>
      have hx : admitCheck catalog ss st sv x = none :=
        hmin 0 (Nat.succ_pos k') x List.getElem?_cons_zero
      simp only [scanBatch, hx]
      have hrec := ih k' (base + 1) qid q (by simpa using hk) hadm
        (fun m hm sid hsid => hmin (m + 1) (by omega) sid (by simpa using hsid))
      rw [hrec]
      have harith : base + 1 + k' = base + (k' + 1) := by omega
      rw [harith]

/-- C5: with an active batch (non-empty `currentBatch`, cursor inside
it), `serveNext` scans forward from the cursor, skipping every entry that
is inadmissible — already shown this session or today by id or by
normalized content, a content duplicate of a pre-cursor (already served)
batch entry, or unresolvable in the catalog — returns the item at the
first admissible position `j`, sets the cursor to `j + 1` (past the
returned item and every skipped entry), and marks the item shown in both
the session set and the today set. -/
theorem serveNext_batch_scan (catalog : List Question) (s : UserState)
    (now : Int) (pick : Nat) (j : Nat)
    (hb : s.currentBatch ≠ [])
    (hij : s.currentBatchIndex ≤ j)
    (hjl : j < s.currentBatch.length)
    (hadm : batchAdmissibleAt catalog s j = true)
    (hmin : ∀ i, i < j → s.currentBatchIndex ≤ i →
      batchAdmissibleAt catalog s i = false) :
    ∃ qid q, s.currentBatch[j]? = some qid ∧
      admitCheck catalog (s.shownFlashcards ++ s.dailyShownFlashcards)
        (shownTextsOf catalog (s.shownFlashcards ++ s.dailyShownFlashcards))
        (servedTextsOf catalog s.currentBatch s.currentBatchIndex) qid =
        some q ∧
      serveNext catalog s now pick =
        (.card q false,
          markShown { s with currentBatchIndex := j + 1 } q.id) ∧
      q.id ∉ s.shownFlashcards ∧ q.id ∉ s.dailyShownFlashcards ∧
      (serveNext catalog s now pick).2.currentBatchIndex = j + 1 ∧
      (serveNext catalog s now pick).2.shownFlashcards =
        s.shownFlashcards ++ [q.id] ∧
      (serveNext catalog s now pick).2.dailyShownFlashcards =
        s.dailyShownFlashcards ++ [q.id] := by
  unfold batchAdmissibleAt at hadm
  cases hj' : s.currentBatch[j]? with
  | none => rw [hj'] at hadm; exact absurd hadm (by simp)
  | some qid =>
    rw [hj'] at hadm
    have hadm' : (admitCheck catalog
        (s.shownFlashcards ++ s.dailyShownFlashcards)
        (shownTextsOf catalog (s.shownFlashcards ++ s.dailyShownFlashcards))
        (servedTextsOf catalog s.currentBatch s.currentBatchIndex)
        qid).isSome = true := hadm
    obtain ⟨q, hq⟩ := Option.isSome_iff_exists.mp hadm'
    have hspec := admitCheck_some _ _ _ _ _ _ hq
    have hscan : scanBatch catalog
        (s.shownFlashcards ++ s.dailyShownFlashcards)
        (shownTextsOf catalog (s.shownFlashcards ++ s.dailyShownFlashcards))
        (servedTextsOf catalog s.currentBatch s.currentBatchIndex)
        (s.currentBatch.drop s.currentBatchIndex) s.currentBatchIndex =
        some (j, q) := by
      have hget : (s.currentBatch.drop s.currentBatchIndex)[j -
          s.currentBatchIndex]? = some qid := by
        rw [List.getElem?_drop, Nat.add_sub_cancel' hij]
        exact hj'
      have hmin' : ∀ m, m < j - s.currentBatchIndex → ∀ sid,
          (s.currentBatch.drop s.currentBatchIndex)[m]? = some sid →
          admitCheck catalog
            (s.shownFlashcards ++ s.dailyShownFlashcards)
            (shownTextsOf catalog
              (s.shownFlashcards ++ s.dailyShownFlashcards))
            (servedTextsOf catalog s.currentBatch s.currentBatchIndex) sid =
            none := by
        intro m hm sid hsid
        rw [List.getElem?_drop] at hsid
        have hfalse := hmin (s.currentBatchIndex + m) (by omega) (by omega)
        unfold batchAdmissibleAt at hfalse
        have hfalse' : (match s.currentBatch[s.currentBatchIndex + m]? with
            | some sid' => (admitCheck catalog
                (s.shownFlashcards ++ s.dailyShownFlashcards)
                (shownTextsOf catalog
                  (s.shownFlashcards ++ s.dailyShownFlashcards))
                (servedTextsOf catalog s.currentBatch
                  s.currentBatchIndex) sid').isSome
            | none => false) = false := hfalse
        rw [hsid] at hfalse'
        have hfalse2 : (admitCheck catalog
            (s.shownFlashcards ++ s.dailyShownFlashcards)
            (shownTextsOf catalog
              (s.shownFlashcards ++ s.dailyShownFlashcards))
            (servedTextsOf catalog s.currentBatch s.currentBatchIndex)
            sid).isSome = false := hfalse'
        cases hAC : admitCheck catalog
            (s.shownFlashcards ++ s.dailyShownFlashcards)
            (shownTextsOf catalog
              (s.shownFlashcards ++ s.dailyShownFlashcards))
            (servedTextsOf catalog s.currentBatch s.currentBatchIndex) sid with
        | none => rfl
        | some _ => rw [hAC] at hfalse2; exact absurd hfalse2 (by simp)
      have h := scanBatch_least catalog
        (s.shownFlashcards ++ s.dailyShownFlashcards)
        (shownTextsOf catalog (s.shownFlashcards ++ s.dailyShownFlashcards))
        (servedTextsOf catalog s.currentBatch s.currentBatchIndex)
        (s.currentBatch.drop s.currentBatchIndex)
        (j - s.currentBatchIndex) s.currentBatchIndex qid q hget hq hmin'
      rw [Nat.add_sub_cancel' hij] at h
      exact h
    have hnotle : ¬ (s.currentBatch.length ≤ s.currentBatchIndex) := by omega
    have hserve : serveNext catalog s now pick =
        (.card q false,
          markShown { s with currentBatchIndex := j + 1 } q.id) := by
      simp only [serveNext, if_pos hb, if_neg hnotle, hscan]
    have hqid : q.id = qid := hspec.2.1
    have hnshown : q.id ∉ s.shownFlashcards := by
      rw [hqid]
      intro hmem
      exact hspec.2.2.2.2.1 (List.mem_append.mpr (Or.inl hmem))
    have hndaily : q.id ∉ s.dailyShownFlashcards := by
      rw [hqid]
      intro hmem
      exact hspec.2.2.2.2.1 (List.mem_append.mpr (Or.inr hmem))
    refine ⟨qid, q, rfl, hq, hserve, hnshown, hndaily, ?_, ?_, ?_⟩
    · rw [hserve]
      simp [markShown]
    · rw [hserve]
      simp [markShown, hnshown]
    · rw [hserve]
      simp [markShown, hndaily]

theorem serveNext_batch_scan_witness :
    (serveNext [exQA, exQB] exS5 0 0).1 = .card exQB false ∧
    (serveNext [exQA, exQB] exS5 0 0).2.currentBatchIndex = 2 ∧
    (serveNext [exQA, exQB] exS5 0 0).2.shownFlashcards = ["b"] ∧
    (serveNext [exQA, exQB] exS5 0 0).2.dailyShownFlashcards = ["a", "b"] := by
  obtain ⟨qid, q, hget, hadm, hserve, _, _, hidx, hshown, hdaily⟩ :=
    serveNext_batch_scan [exQA, exQB] exS5 0 0 1
      (by decide) (by decide) (by decide) (by decide)
      (by
        intro i h1 h2
        have hi : i = 0 := by omega
        subst hi
        decide)
  have hqid : qid = "b" := by
    have h2 : exS5.currentBatch[1]? = some "b" := by decide
    rw [h2] at hget
    exact (Option.some.inj hget).symm
  subst hqid
  have hq : q = exQB := by
    have h3 : admitCheck [exQA, exQB]
        (exS5.shownFlashcards ++ exS5.dailyShownFlashcards)
        (shownTextsOf [exQA, exQB]
          (exS5.shownFlashcards ++ exS5.dailyShownFlashcards))
        (servedTextsOf [exQA, exQB] exS5.currentBatch exS5.currentBatchIndex)
        "b" = some exQB := by decide
    rw [h3] at hadm
    exact (Option.some.inj hadm).symm
  subst hq
  refine ⟨by rw [hserve], hidx, ?_, ?_⟩
  · rw [hshown]; decide
  · rw [hdaily]; decide

/-- C4 counterexample: with no active batch, one globally due item that is
already in today's shown set, and an active cooldown, `serveNext` does
not return the due item — the due path applies the already-shown filters
— and instead rejects with the cooldown error. -/
theorem serveNext_shown_due_cooldown_counterexample :
    exS4c.currentBatch = [] ∧
    getAllDueQuestions exS4c.reviewData 1000 = ["q4"] ∧
    (serveNext [exQ4] exS4c 1000 0).1 = .cooldownRejection 300 ∧
    (∀ q b, (serveNext [exQ4] exS4c 1000 0).1 ≠ ServeOutcome.card q b) := by
  refine ⟨rfl, by decide, by decide, ?_⟩
  intro q b h
  rw [show (serveNext [exQ4] exS4c 1000 0).1 = .cooldownRejection 300
    by decide] at h
  exact ServeOutcome.noConfusion h

/-- C4 (amended): with an empty `currentBatch` and at least one globally
due item that is not already shown (by id or by normalized content,
session or today), `serveNext` returns such a due item at once and never
a cooldown rejection; due items that are already shown are filtered out
of the due path, and when every due item is filtered the call falls
through to the cooldown check, which may reject (see the
counterexample); a non-empty but exhausted batch instead answers a
batch-completed signal. -/
theorem serveNext_due_bypass (catalog : List Question) (s : UserState)
    (now : Int) (pick : Nat)
    (hb : s.currentBatch = [])
    (hcand : dueServeCandidates catalog s now ≠ []) :
    ∃ q, q ∈ dueServeCandidates catalog s now ∧
      q.id ∈ getAllDueQuestions s.reviewData now ∧
      serveNext catalog s now pick = (.card q true, markShown s q.id) ∧
      (∀ r s₂, serveNext catalog s now pick ≠ (.cooldownRejection r, s₂)) := by
  have hlen : 0 < (dueServeCandidates catalog s now).length :=
    List.length_pos.mpr hcand
  have hlt : pick % (dueServeCandidates catalog s now).length <
      (dueServeCandidates catalog s now).length := Nat.mod_lt _ hlen
  have hqmem : (dueServeCandidates catalog s now).getD
      (pick % (dueServeCandidates catalog s now).length) defaultQuestion ∈
      dueServeCandidates catalog s now := by
    rw [List.getD_eq_getElem?_getD, List.getElem?_eq_getElem hlt]
    exact List.getElem_mem hlt
  have hdueq : ((dueServeCandidates catalog s now).getD
      (pick % (dueServeCandidates catalog s now).length)
      defaultQuestion).id ∈ getAllDueQuestions s.reviewData now := by
    have hm := hqmem
    simp only [dueServeCandidates, List.mem_filter, Bool.and_eq_true,
      decide_eq_true_eq] at hm
    exact hm.2.1.1.2
  have hduene : getAllDueQuestions s.reviewData now ≠ [] :=
    List.ne_nil_of_mem hdueq
  have hserve : serveNext catalog s now pick =
      (.card ((dueServeCandidates catalog s now).getD
          (pick % (dueServeCandidates catalog s now).length)
          defaultQuestion) true,
        markShown s ((dueServeCandidates catalog s now).getD
          (pick % (dueServeCandidates catalog s now).length)
          defaultQuestion).id) := by
    simp only [serveNext]
    rw [if_neg (by simp [hb])]
    simp only [serveAfterBatch]
    rw [if_pos hduene, if_pos hcand]
  refine ⟨_, hqmem, hdueq, hserve, ?_⟩
  intro r s₂ hcontra
  rw [hserve] at hcontra
  exact absurd hcontra (by simp)

theorem serveNext_due_bypass_witness :
    (serveNext [exQ4] exS4w 10 0).1 = .card exQ4 true ∧
    (serveNext [exQ4] exS4w 10 0).2.shownFlashcards = ["q4"] ∧
    (serveNext [exQ4] exS4w 10 0).2.dailyShownFlashcards = ["q4"] := by
  obtain ⟨q, hmem, hdue, hserve, hnc⟩ :=
    serveNext_due_bypass [exQ4] exS4w 10 0 rfl (by decide)
  have hq : q = exQ4 := by
    have hd : dueServeCandidates [exQ4] exS4w 10 = [exQ4] := by decide
    rw [hd] at hmem
    simpa using hmem
  subst hq
  refine ⟨by rw [hserve], by rw [hserve]; decide, by rw [hserve]; decide⟩

/-- C9: with no stored session subtopics, a non-forced `startSession`
never consults the cooldown anchor — the guard runs only on the
`forceNew` path — and every successful session creation ends in
`startNewSession`, which deletes `batchCompletionTime`; so a non-forced
start ends an active cooldown before its five minutes elapse. -/
theorem startSession_clears_cooldown (catalog : List Question)
    (s : UserState) (now : Int)
    (shuffleNew : List Question → List Question)
    (shuffleSub : List String → List String) (subs : List String)
    (hsess : s.sessionSubtopics = [])
    (hres : (startSession catalog s now false shuffleNew shuffleSub).1 =
      .started subs) :
    (startSession catalog s now false shuffleNew
      shuffleSub).2.batchCompletionTime = none := by
  have hstart : startSession catalog s now false shuffleNew shuffleSub =
      startSessionCore catalog s now shuffleNew shuffleSub := by
    have hdef : startSession catalog s now false shuffleNew shuffleSub =
        (if s.sessionSubtopics ≠ [] then
          ((StartResult.existingSession s.sessionSubtopics, s) :
            StartResult × UserState)
        else startSessionCore catalog s now shuffleNew shuffleSub) := rfl
    rw [hdef, if_neg (by rw [hsess]; simp)]
  rw [hstart] at hres ⊢
  by_cases h1 : (composeBatch catalog s.reviewData
      (s.previousBatches ++ s.currentBatch) now shuffleNew 6).subtopics = []
  · by_cases h2 : getAllUniqueSubtopics catalog = []
    · simp only [startSessionCore, if_pos h1, if_pos h2] at hres
      exact StartResult.noConfusion hres
    · simp only [startSessionCore, if_pos h1, if_neg h2]
      rfl
  · simp only [startSessionCore, if_neg h1]
    rfl

theorem startSession_clears_cooldown_witness :
    getBatchCompletionTime exS9 = some 50 ∧
    ((100 : Int) - 50 < cooldownMs) ∧
    (startSession [exQ5] exS9 100 false id id).1 = .started ["TopicS"] ∧
    (startSession [exQ5] exS9 100 false id
      id).2.batchCompletionTime = none := by
  refine ⟨rfl, by decide, by decide,
    startSession_clears_cooldown [exQ5] exS9 100 id id ["TopicS"] rfl
      (by decide)⟩
